import Mathlib

/-!
Shallow embedding of the Web3-Pi-UPS-Service monitoring daemon (Rust).

The binary is built from `src/main.rs`, which is self-contained (it declares no
submodules); its definitions are embedded here at top level.  The repository
additionally contains a vestigial module set (`src/ups_data.rs`, `src/daemon.rs`,
`src/ipc.rs`, ...) from a subcommand-based variant whose entry point is not part
of the crate root; the parts of it needed by the claims (the telemetry record it
serializes and the IPC broadcast hub) are embedded in the `Daemon` namespace.

Machine integers are modelled as `Nat` (u8/u32) and `Int` (i32); the decoder
enforces the ranges, and `u8::saturating_add` is modelled explicitly.
Wall-clock instants are modelled as whole seconds (`Nat`), matching the
`Instant::elapsed().as_secs()` comparisons in the code.
-/
/-- Decoded telemetry sample: struct `UpsData` in `src/main.rs` (fields in
declaration order; `u8` fields are `Nat` kept in `0..=255` by the decoder,
`u32` fields are `Nat` below `2^32`, and `ba : i32` is an `Int`). -/
structure UpsData where
  up : Nat
  pd : Nat
  pdo : Nat
  cc : Nat
  t : Nat
  vs : Nat
  is : Nat
  vr : Nat
  ir : Nat
  soc : Nat
  sd : Nat
  bv : Nat
  ba : Int
  cs : Nat
  pg : Nat
  vi : Nat
  ii : Nat
  ci : Nat
  cf : Nat
deriving Repr, DecidableEq

/-- Battery section of the configuration: struct `BatteryConfig` in `src/main.rs`. -/
structure BatteryConfig where
  shutdown_threshold : Nat
  shutdown_cancel_margin : Nat
  min_valid_voltage : Nat
  max_valid_voltage : Nat
deriving Repr, DecidableEq

/-- Function `is_on_battery` from `src/main.rs`: `vi < min_valid_voltage || vi > max_valid_voltage`. -/
def is_on_battery (vi min_valid_voltage max_valid_voltage : Nat) : Bool :=
  decide (vi < min_valid_voltage) || decide (max_valid_voltage < vi)

/-- Function `should_shutdown` from `src/main.rs`: low shutdown-decision percentage (`sd`)
while on battery. -/
def should_shutdown (ups_data : UpsData) (config : BatteryConfig) : Bool :=
  let low_battery := decide (ups_data.sd < config.shutdown_threshold)
  let on_battery :=
    is_on_battery ups_data.vi config.min_valid_voltage config.max_valid_voltage
  low_battery && on_battery

/-- Model of `u8::saturating_add`, used for `shutdown_threshold.saturating_add(shutdown_cancel_margin)`. -/
def satAddU8 (a b : Nat) : Nat := min (a + b) 255

/-- Outcome of one policy evaluation inside `run_monitoring_loop`
(`src/main.rs`, lines 356-400): either the shutdown fires, or the loop keeps
running with a (possibly cleared) `shutdown_timer`. -/
inductive PolicyResult where
  | fire
  | stay (timer : Option Nat)
deriving Repr, DecidableEq

/-- One evaluation of the shutdown policy on a decoded sample, translated from
the body of `run_monitoring_loop` in `src/main.rs` (lines 356-400).
`timer` is the loop-local `shutdown_timer` (start instant in seconds),
`now` the current instant in seconds. -/
def policyStep (battery : BatteryConfig) (delay_seconds : Nat)
    (timer : Option Nat) (ups_data : UpsData) (now : Nat) : PolicyResult :=
  if should_shutdown ups_data battery then
    match timer with
    | none => .stay (some now)
    | some start_time =>
      if delay_seconds ≤ now - start_time then .fire else .stay (some start_time)
  else if timer.isSome then
    let cancel_threshold :=
      satAddU8 battery.shutdown_threshold battery.shutdown_cancel_margin
    let battery_recovered := decide (cancel_threshold ≤ ups_data.sd)
    let power_restored :=
      !is_on_battery ups_data.vi battery.min_valid_voltage battery.max_valid_voltage
    if power_restored || battery_recovered then .stay none else .stay timer
  else .stay none

/-!
Telemetry decoder.  `run_monitoring_loop` parses each trimmed line with
`serde_json::from_str::<UpsData>`.  The JSON lexer is abstracted away: a
well-formed line is given as the parsed object, a list of (field name, integer
value) pairs.  The derived `Deserialize` impl is embedded field by field:
`soc` and `vi` are required, every other known field defaults to zero when
absent, each present field must fit its integer type, duplicate keys are an
error, and unknown fields are ignored.
-/
/-- First value bound to `name` in the decoded JSON object. -/
def lookupField (fields : List (String × Int)) (name : String) : Option Int :=
  (fields.find? (fun p => p.1 == name)).map (fun p => p.2)

/-- Deserialize an integer JSON value into a `u8`. -/
def asU8 (v : Int) : Option Nat :=
  if 0 ≤ v ∧ v ≤ 255 then some v.toNat else none

/-- Deserialize an integer JSON value into a `u32`. -/
def asU32 (v : Int) : Option Nat :=
  if 0 ≤ v ∧ v < 4294967296 then some v.toNat else none

/-- Deserialize an integer JSON value into an `i32`. -/
def asI32 (v : Int) : Option Int :=
  if -2147483648 ≤ v ∧ v ≤ 2147483647 then some v else none

/-- Required `u8` field (no `serde(default)`). -/
def reqU8 (fields : List (String × Int)) (name : String) : Option Nat :=
  (lookupField fields name).bind asU8

/-- Required `u32` field (no `serde(default)`). -/
def reqU32 (fields : List (String × Int)) (name : String) : Option Nat :=
  (lookupField fields name).bind asU32

/-- Optional `u8` field with `serde(default)`, i.e. 0 when absent. -/
def optU8 (fields : List (String × Int)) (name : String) : Option Nat :=
  match lookupField fields name with
  | none => some 0
  | some v => asU8 v

/-- Optional `u32` field with `serde(default)`. -/
def optU32 (fields : List (String × Int)) (name : String) : Option Nat :=
  match lookupField fields name with
  | none => some 0
  | some v => asU32 v

/-- Optional `i32` field with `serde(default)`. -/
def optI32 (fields : List (String × Int)) (name : String) : Option Int :=
  match lookupField fields name with
  | none => some 0
  | some v => asI32 v

/-- Decoder `serde_json::from_str::<UpsData>` on a parsed object, from the struct
declaration in `src/main.rs` (lines 61-100): `soc` and `vi` are required,
`sd` and all diagnostic fields carry `#[serde(default)]`. -/
def decodeUpsData (fields : List (String × Int)) : Option UpsData :=
  if (fields.map Prod.fst).Nodup then
    match reqU8 fields "soc", reqU32 fields "vi", optU8 fields "sd",
        optU32 fields "up", optU8 fields "pd", optU8 fields "pdo",
        optU8 fields "cc", optU32 fields "t", optU32 fields "vs",
        optU32 fields "is", optU32 fields "vr", optU32 fields "ir",
        optU32 fields "bv", optI32 fields "ba", optU8 fields "cs",
        optU8 fields "pg", optU32 fields "ii", optU32 fields "ci",
        optU8 fields "cf" with
    | some soc, some vi, some sd, some up, some pd, some pdo, some cc, some t,
      some vs, some isv, some vr, some ir, some bv, some ba, some cs, some pg,
      some ii, some ci, some cf =>
      some ⟨up, pd, pdo, cc, t, vs, isv, vr, ir, soc, sd, bv, ba, cs, pg, vi, ii, ci, cf⟩
    | _, _, _, _, _, _, _, _, _, _, _, _, _, _, _, _, _, _, _ => none
  else none

/-!
Monitoring loop and outer supervisor.  One iteration of the `while running`
loop in `run_monitoring_loop` (`src/main.rs`, lines 319-416) is driven by the
outcome of `reader.read_line`; the session consumes a finite trace of read
outcomes, each stamped with the current instant in whole seconds.  The trace
ending models the cooperative cancellation flag being cleared (the loop then
exits with `Ok(())`).

When the policy fires, the loop calls `execute_shutdown_script(..)?`
(`src/main.rs`, line 374).  `execute_shutdown_script` (lines 178-202) spawns
either the configured script or, when the script file is missing, the
fallback `shutdown -h now` command; if the spawn itself fails, the `?` at each
`spawn()` call propagates an `Err` out of the session, and `main` restarts the
loop after its backoff.  If the spawn succeeds, the function enters an
infinite sleep loop and never returns (the `return Ok(())` at line 375 is
unreachable).  The OS-level spawn outcome is the environment input
`ScriptOutcome`, carried by the session.
-/
/-- One `read_line` outcome as classified by `run_monitoring_loop`:
`Ok(0)` (EOF), `Err(TimedOut)`, any other `Err` (other serial I/O error),
`Ok(n)` with a blank trimmed line, a line that fails JSON parsing, or a parsed
JSON object of integer fields. -/
inductive ReadEvent where
  | eof
  | timeout
  | ioError
  | blank
  | malformed
  | object (fields : List (String × Int))
deriving Repr, DecidableEq

/-- A read outcome stamped with the instant (seconds) at which it is handled. -/
structure TimedEvent where
  now : Nat
  ev : ReadEvent
deriving Repr, DecidableEq

/-- The only externally visible action of the loop. -/
inductive UpsAction where
  | shutdown
deriving Repr, DecidableEq

/-- Outcome of the `Command::spawn` performed by `execute_shutdown_script`
(`src/main.rs`, lines 178-202) if it is reached in a session: either the spawn
succeeds and the function sleeps forever awaiting OS shutdown, or the spawn
fails and the `?` propagates an `Err` out of `run_monitoring_loop`. -/
inductive ScriptOutcome where
  | blocks
  | spawnError
deriving Repr, DecidableEq

/-- How a monitoring session ends: the policy fired and the shutdown spawn
succeeded (control never returns to the supervisor), the policy fired but the
spawn failed (`run_monitoring_loop` returns `Err`), or the loop stopped
without firing (cancellation via the `running` flag / end of trace,
`Ok(())`). -/
inductive LoopExit where
  | fired
  | errored
  | stopped
deriving Repr, DecidableEq

/-- The session body of `run_monitoring_loop` (`src/main.rs`, lines 319-419)
over a finite trace: EOF, timeouts, other serial I/O errors, blank lines and
malformed lines are all retried in place; a decoded sample is evaluated by the
policy; when the policy fires the session invokes
`execute_shutdown_script` and ends immediately, with the exit kind given by
the spawn outcome `script`. -/
def runLoop (battery : BatteryConfig) (delay_seconds : Nat)
    (script : ScriptOutcome) :
    Option Nat → List TimedEvent → List UpsAction × LoopExit
  | _, [] => ([], .stopped)
  | timer, e :: rest =>
    match e.ev with
    | .eof => runLoop battery delay_seconds script timer rest
    | .timeout => runLoop battery delay_seconds script timer rest
    | .ioError => runLoop battery delay_seconds script timer rest
    | .blank => runLoop battery delay_seconds script timer rest
    | .malformed => runLoop battery delay_seconds script timer rest
    | .object fields =>
      match decodeUpsData fields with
      | none => runLoop battery delay_seconds script timer rest
      | some d =>
        match policyStep battery delay_seconds timer d e.now with
        | .fire =>
          match script with
          | .blocks => ([UpsAction.shutdown], .fired)
          | .spawnError => ([UpsAction.shutdown], .errored)
        | .stay timer2 => runLoop battery delay_seconds script timer2 rest

/-- One attempt of the outer supervisor in `main` (`src/main.rs`, lines
503-514): either `run_monitoring_loop` fails before its loop starts (port
resolution or open error) and is retried after the backoff, or the session
runs on a trace of read outcomes with a given shutdown-spawn outcome. -/
inductive Session where
  | startFailure
  | runs (script : ScriptOutcome) (events : List TimedEvent)

/-- The supervisor loop of `main` (`src/main.rs`, lines 503-514): a session
that exits `fired` never returns control (the collaborator sleeps forever);
a session that returns `Ok(())` (cancellation) makes the supervisor break;
a session that returns `Err` — including a fired session whose shutdown spawn
failed — is restarted after the backoff, so the monitoring loop and the
policy run again. -/
def supervise (battery : BatteryConfig) (delay_seconds : Nat) :
    List Session → List UpsAction
  | [] => []
  | .startFailure :: rest => supervise battery delay_seconds rest
  | .runs script events :: rest =>
    match runLoop battery delay_seconds script none events with
    | (acts, .fired) => acts
    | (acts, .stopped) => acts
    | (acts, .errored) => acts ++ supervise battery delay_seconds rest

/-!
Device auto-discovery: `detect_ups_port` in `src/main.rs` (lines 214-276).
The sysfs scan is modelled as a list of directory entries of `/sys/class/tty`,
each carrying its file name and the identity (product) string read from
`device/../product` — `none` when the read fails.  The enumeration loop keeps
three `Option` slots exactly as the code does: the exact-marker slot is
overwritten on every match, the legacy slot and the first-ttyACM fallback are
first-wins.
-/
/-- One entry of `/sys/class/tty`: the device file name and the product
identity string (`none` if `fs::read_to_string` on it fails). -/
structure TtyEntry where
  name : String
  product : Option String
deriving Repr, DecidableEq

/-- Path `format!("/dev/\x7b\x7d", name_str)`. -/
def devicePath (e : TtyEntry) : String := "/dev/" ++ e.name

/-- Test `name_str.starts_with("ttyACM")` (prefix test on the character lists). -/
def isACM (e : TtyEntry) : Bool := "ttyACM".data.isPrefixOf e.name.data

/-- Substring test on character lists: some suffix starts with `pat`. -/
def listContainsSub (pat : List Char) : List Char → Bool
  | [] => pat.isEmpty
  | c :: rest => pat.isPrefixOf (c :: rest) || listContainsSub pat rest

/-- Rust `str::contains` with a literal pattern. -/
def strContainsSub (s pat : String) : Bool := listContainsSub pat.data s.data

/-- The candidate slots tracked by the enumeration loop of `detect_ups_port`. -/
structure DetectAcc where
  web3_pi_ups : Option String
  raspberry_pi_pico : Option String
  first_ttyacm : Option String
deriving Repr, DecidableEq

/-- One iteration of the `for entry in entries` loop of `detect_ups_port`. -/
def detectStep (acc : DetectAcc) (e : TtyEntry) : DetectAcc :=
  if isACM e then
    let device_path := devicePath e
    let acc1 :=
      if acc.first_ttyacm.isNone then { acc with first_ttyacm := some device_path }
      else acc
    match e.product with
    | some product =>
      if product = "Web3_Pi_UPS" then { acc1 with web3_pi_ups := some device_path }
      else if strContainsSub product "Pico" then
        if acc1.raspberry_pi_pico.isNone then
          { acc1 with raspberry_pi_pico := some device_path }
        else acc1
      else acc1
    | none => acc1
  else acc

/-- The trailing return-by-priority block of `detect_ups_port`
(`src/main.rs`, lines 259-275). -/
def detectResult (acc : DetectAcc) : Option String :=
  match acc.web3_pi_ups with
  | some port => some port
  | none =>
    match acc.raspberry_pi_pico with
    | some port => some port
    | none => acc.first_ttyacm

/-- Function `detect_ups_port` from `src/main.rs` (lines 214-276): scan the entries,
then return by priority exact marker, legacy marker, first ttyACM. -/
def detect_ups_port (entries : List TtyEntry) : Option String :=
  detectResult (entries.foldl detectStep ⟨none, none, none⟩)

/-- Entry selected by the exact new-firmware marker check. -/
def isExactUps (e : TtyEntry) : Bool :=
  isACM e && decide (e.product = some "Web3_Pi_UPS")

/-- Entry whose identity string reaches the legacy `contains("Pico")` check
and passes it (the exact marker branch is tested first). -/
def isLegacyPico (e : TtyEntry) : Bool :=
  isACM e && !decide (e.product = some "Web3_Pi_UPS") &&
    (match e.product with
     | some product => strContainsSub product "Pico"
     | none => false)

/-- The exact-marker candidates, in enumeration order. -/
def exactEntries (entries : List TtyEntry) : List TtyEntry :=
  entries.filter isExactUps

/-- The legacy-marker candidates, in enumeration order. -/
def legacyEntries (entries : List TtyEntry) : List TtyEntry :=
  entries.filter isLegacyPico

/-- All ttyACM candidates, in enumeration order. -/
def acmEntries (entries : List TtyEntry) : List TtyEntry :=
  entries.filter isACM

/-- Left-biased choice on options, for stating the selection priority. -/
def orO {α : Type} (a b : Option α) : Option α :=
  match a with
  | some x => some x
  | none => b

/-- Battery settings of the worked scenario in the spec (threshold 10, margin 5,
valid input voltage 8000-21000 mV). -/
def cfgScenario : BatteryConfig := ⟨10, 5, 8000, 21000⟩

/-- Sample with the given `soc`, `sd` and `vi` and all other fields zero. -/
def mkSample (soc sd vi : Nat) : UpsData :=
  ⟨0, 0, 0, 0, 0, 0, 0, 0, 0, soc, sd, 0, 0, 0, 0, vi, 0, 0, 0⟩

/-- A trigger line: `sd = 9` below the scenario threshold, `vi = 7000` below
the valid range. -/
def trigFields : List (String × Int) := [("soc", 50), ("sd", 9), ("vi", 7000)]

/-- A read trace that makes the scenario policy fire: a trigger sample starts
the countdown at 0 s and a second trigger sample arrives at the 30 s
deadline. -/
def trigEvents : List TimedEvent :=
  [⟨0, ReadEvent.object trigFields⟩, ⟨30, ReadEvent.object trigFields⟩]

/-- A legacy-firmware candidate enumerated before the exact-marker one. -/
def entryLegacy : TtyEntry := ⟨"ttyACM0", some "Raspberry Pi Pico"⟩

/-- Exact-marker candidates. -/
def entryExact1 : TtyEntry := ⟨"ttyACM1", some "Web3_Pi_UPS"⟩

/-- A second exact-marker candidate, enumerated later. -/
def entryExact2 : TtyEntry := ⟨"ttyACM2", some "Web3_Pi_UPS"⟩

/-- A candidate whose product identity cannot be read. -/
def entryNoProduct : TtyEntry := ⟨"ttyACM3", none⟩

/-- Observer write outcome used in the C8 witness: the write to stream 2
fails, every other write succeeds. -/
def okNot2 : Nat → Bool := fun c => decide (c ≠ 2)

namespace Daemon

/-!
The subcommand-variant modules.  `src/ups_data.rs` declares its own `UpsData`
(no `sd` field) with `Serialize`; `src/ipc.rs` implements the broadcast hub
used by `run_daemon` in `src/daemon.rs`.  Observer connections (`UnixStream`
values held in `IpcServer.clients`) are modelled by abstract identities
(`Nat`), and the outcome of `write_all` on a given stream during one broadcast
by an oracle `writeOk`.
-/
/-- Telemetry record of `src/ups_data.rs` (fields in declaration order; note:
no `sd` field in this variant). -/
structure UpsData where
  up : Nat
  pd : Nat
  pdo : Nat
  cc : Nat
  t : Nat
  vs : Nat
  is : Nat
  vr : Nat
  ir : Nat
  soc : Nat
  bv : Nat
  ba : Int
  cs : Nat
  pg : Nat
  vi : Nat
  ii : Nat
  ci : Nat
  cf : Nat
deriving Repr, DecidableEq

/-- Function `is_on_battery` from `src/ups_data.rs`: lower bound only in this variant. -/
def is_on_battery (vi min_valid_voltage : Nat) : Bool :=
  decide (vi < min_valid_voltage)

/-- Function `should_shutdown` from `src/ups_data.rs`: display `soc` in this variant. -/
def should_shutdown (ups_data : UpsData) (shutdown_threshold min_valid_voltage : Nat) :
    Bool :=
  decide (ups_data.soc < shutdown_threshold) &&
    is_on_battery ups_data.vi min_valid_voltage

/-- Serializer `serde_json::to_string` on `ups_data::UpsData`: fields serialized in
declaration order (derived `Serialize`); this never fails for this struct. -/
def serializeUpsData (d : UpsData) : String :=
  "\x7b\"up\":" ++ toString d.up ++
  ",\"pd\":" ++ toString d.pd ++
  ",\"pdo\":" ++ toString d.pdo ++
  ",\"cc\":" ++ toString d.cc ++
  ",\"t\":" ++ toString d.t ++
  ",\"vs\":" ++ toString d.vs ++
  ",\"is\":" ++ toString d.is ++
  ",\"vr\":" ++ toString d.vr ++
  ",\"ir\":" ++ toString d.ir ++
  ",\"soc\":" ++ toString d.soc ++
  ",\"bv\":" ++ toString d.bv ++
  ",\"ba\":" ++ toString d.ba ++
  ",\"cs\":" ++ toString d.cs ++
  ",\"pg\":" ++ toString d.pg ++
  ",\"vi\":" ++ toString d.vi ++
  ",\"ii\":" ++ toString d.ii ++
  ",\"ci\":" ++ toString d.ci ++
  ",\"cf\":" ++ toString d.cf ++ "\x7d"

/-- Method `IpcServer::broadcast` (`src/ipc.rs`, lines 67-77): serialize once, append
the newline, then `retain_mut` writes the message to every client in order and
keeps exactly those whose `write_all` succeeded.  Returns the message, the
write attempts made (one per connected client, in order), and the retained
client list. -/
def broadcast (writeOk : Nat → Bool) (clients : List Nat) (d : UpsData) :
    String × List (Nat × String) × List Nat :=
  let message := serializeUpsData d ++ "\n"
  (message, clients.map (fun c => (c, message)), clients.filter writeOk)

/-- An operation the daemon loop performs on the client list of the hub:
`accept_clients` pushes the pending connections, `broadcast` retains the
clients whose write succeeded. -/
inductive HubOp where
  | accept (pending : List Nat)
  | publish (writeOk : Nat → Bool) (d : UpsData)

/-- Effect of one hub operation on `IpcServer.clients`. -/
def hubStep (clients : List Nat) : HubOp → List Nat
  | .accept pending => clients ++ pending
  | .publish writeOk d => (broadcast writeOk clients d).2.2

/-- The client list after a sequence of hub operations. -/
def hubRun (clients : List Nat) (ops : List HubOp) : List Nat :=
  ops.foldl hubStep clients

end Daemon

/-- All-zero daemon-variant sample, for concrete broadcasts. -/
def dZero : Daemon.UpsData := ⟨0, 0, 0, 0, 0, 0, 0, 0, 0, 0, 0, 0, 0, 0, 0, 0, 0, 0⟩

namespace Daemon

theorem hubRun_not_mem (c : Nat) :
    ∀ (ops : List HubOp) (clients : List Nat), c ∉ clients →
      (∀ pending, HubOp.accept pending ∈ ops → c ∉ pending) →
      c ∉ hubRun clients ops := by
  intro ops
  induction ops with
  | nil => intro clients hc _; exact hc
  | cons op rest ih =>
    intro clients hc hacc
    cases op with
    | accept pending =>
      have hnp : c ∉ pending := hacc pending (List.mem_cons_self _ _)
      refine ih (clients ++ pending) ?_ ?_
      · intro hmem
        rcases List.mem_append.mp hmem with h | h
        · exact hc h
        · exact hnp h
      · intro p hp
        exact hacc p (List.mem_cons_of_mem _ hp)
    | publish writeOk d =>
      refine ih (clients.filter writeOk) ?_ ?_
      · intro hmem
        exact hc (List.mem_of_mem_filter hmem)
      · intro p hp
        exact hacc p (List.mem_cons_of_mem _ hp)

end Daemon

theorem is_on_battery_iff (vi mn mx : Nat) :
    is_on_battery vi mn mx = true ↔ (vi < mn ∨ mx < vi) := by
  simp [is_on_battery]

theorem should_shutdown_iff (d : UpsData) (b : BatteryConfig) :
    should_shutdown d b = true ↔
      (d.sd < b.shutdown_threshold ∧
        (d.vi < b.min_valid_voltage ∨ b.max_valid_voltage < d.vi)) := by
  simp [should_shutdown, is_on_battery]

theorem asU8_le {v : Int} {n : Nat} (h : asU8 v = some n) : n ≤ 255 := by
  unfold asU8 at h
  split at h
  · injection h with h
    omega
  · exact Option.noConfusion h

theorem reqU8_le {fields : List (String × Int)} {name : String} {n : Nat}
    (h : reqU8 fields name = some n) : n ≤ 255 := by
  unfold reqU8 at h
  cases hl : lookupField fields name with
  | none => rw [hl] at h; exact Option.noConfusion h
  | some v => rw [hl] at h; exact asU8_le h

theorem optU8_le {fields : List (String × Int)} {name : String} {n : Nat}
    (h : optU8 fields name = some n) : n ≤ 255 := by
  unfold optU8 at h
  split at h
  · injection h with h
    omega
  · exact asU8_le h

theorem decodeUpsData_soc_vi_sd {fields : List (String × Int)} {d : UpsData}
    (h : decodeUpsData fields = some d) :
    reqU8 fields "soc" = some d.soc ∧ reqU32 fields "vi" = some d.vi ∧
      optU8 fields "sd" = some d.sd := by
  unfold decodeUpsData at h
  split at h
  · split at h
    · injection h with h2
      subst h2
      exact ⟨by assumption, by assumption, by assumption⟩
    · exact Option.noConfusion h
  · exact Option.noConfusion h

theorem runLoop_actions_length (battery : BatteryConfig) (delay_seconds : Nat)
    (script : ScriptOutcome) :
    ∀ (events : List TimedEvent) (timer : Option Nat),
      (runLoop battery delay_seconds script timer events).1.length ≤ 1 := by
  intro events
  induction events with
  | nil => intro timer; simp [runLoop]
  | cons e rest ih =>
    intro timer
    cases hev : e.ev with
    | object fields =>
      cases hdec : decodeUpsData fields with
      | none => simpa [runLoop, hev, hdec] using ih timer
      | some d =>
        cases hstep : policyStep battery delay_seconds timer d e.now with
        | fire => cases script <;> simp [runLoop, hev, hdec, hstep]
        | stay timer2 => simpa [runLoop, hev, hdec, hstep] using ih timer2
    | eof => simpa [runLoop, hev] using ih timer
    | timeout => simpa [runLoop, hev] using ih timer
    | ioError => simpa [runLoop, hev] using ih timer
    | blank => simpa [runLoop, hev] using ih timer
    | malformed => simpa [runLoop, hev] using ih timer

theorem runLoop_fired_iff (battery : BatteryConfig) (delay_seconds : Nat)
    (script : ScriptOutcome) :
    ∀ (events : List TimedEvent) (timer : Option Nat),
      (runLoop battery delay_seconds script timer events).1 =
          [UpsAction.shutdown] ↔
        ((runLoop battery delay_seconds script timer events).2 = LoopExit.fired ∨
          (runLoop battery delay_seconds script timer events).2 =
            LoopExit.errored) := by
  intro events
  induction events with
  | nil => intro timer; simp [runLoop]
  | cons e rest ih =>
    intro timer
    cases hev : e.ev with
    | object fields =>
      cases hdec : decodeUpsData fields with
      | none => simpa [runLoop, hev, hdec] using ih timer
      | some d =>
        cases hstep : policyStep battery delay_seconds timer d e.now with
        | fire => cases script <;> simp [runLoop, hev, hdec, hstep]
        | stay timer2 => simpa [runLoop, hev, hdec, hstep] using ih timer2
    | eof => simpa [runLoop, hev] using ih timer
    | timeout => simpa [runLoop, hev] using ih timer
    | ioError => simpa [runLoop, hev] using ih timer
    | blank => simpa [runLoop, hev] using ih timer
    | malformed => simpa [runLoop, hev] using ih timer

theorem runLoop_blocks_not_errored (battery : BatteryConfig)
    (delay_seconds : Nat) :
    ∀ (events : List TimedEvent) (timer : Option Nat),
      (runLoop battery delay_seconds ScriptOutcome.blocks timer events).2 ≠
        LoopExit.errored := by
  intro events
  induction events with
  | nil => intro timer; simp [runLoop]
  | cons e rest ih =>
    intro timer
    cases hev : e.ev with
    | object fields =>
      cases hdec : decodeUpsData fields with
      | none => simpa [runLoop, hev, hdec] using ih timer
      | some d =>
        cases hstep : policyStep battery delay_seconds timer d e.now with
        | fire => simp [runLoop, hev, hdec, hstep]
        | stay timer2 => simpa [runLoop, hev, hdec, hstep] using ih timer2
    | eof => simpa [runLoop, hev] using ih timer
    | timeout => simpa [runLoop, hev] using ih timer
    | ioError => simpa [runLoop, hev] using ih timer
    | blank => simpa [runLoop, hev] using ih timer
    | malformed => simpa [runLoop, hev] using ih timer

theorem orO_none_right {α : Type} (a : Option α) : orO a none = a := by
  cases a <;> rfl

theorem getLast?_cons_eq_orO {α : Type} (a : α) (l : List α) :
    (a :: l).getLast? = orO l.getLast? (some a) := by
  induction l generalizing a with
  | nil => rfl
  | cons b l2 ih =>
    rw [List.getLast?_cons_cons, ih b]
    cases l2.getLast? <;> simp [orO]

theorem detectStep_web3 (acc : DetectAcc) (e : TtyEntry) :
    (detectStep acc e).web3_pi_ups =
      if isExactUps e then some (devicePath e) else acc.web3_pi_ups := by
  unfold detectStep isExactUps
  cases hacm : isACM e with
  | false => simp
  | true =>
    cases hprod : e.product with
    | none =>
      simp [hprod]
      all_goals split <;> rfl
    | some p =>
      by_cases hexact : p = "Web3_Pi_UPS"
      · simp [hprod, hexact]
      · by_cases hpico : strContainsSub p "Pico" = true
        · simp [hprod, hexact, hpico]
          all_goals split <;> split <;> rfl
        · simp [hprod, hexact, hpico]
          all_goals split <;> rfl

theorem detectStep_pico (acc : DetectAcc) (e : TtyEntry) :
    (detectStep acc e).raspberry_pi_pico =
      if isLegacyPico e && acc.raspberry_pi_pico.isNone then some (devicePath e)
      else acc.raspberry_pi_pico := by
  unfold detectStep isLegacyPico
  cases hacm : isACM e with
  | false => simp
  | true =>
    cases hprod : e.product with
    | none => simp [hprod]; all_goals split <;> rfl
    | some p =>
      by_cases hexact : p = "Web3_Pi_UPS"
      · simp [hprod, hexact]
        all_goals split <;> rfl
      · by_cases hpico : strContainsSub p "Pico" = true
        · simp [hprod, hexact, hpico]
          all_goals split <;> split <;> simp_all
        · simp [hprod, hexact, hpico]
          all_goals split <;> rfl

theorem detectStep_first (acc : DetectAcc) (e : TtyEntry) :
    (detectStep acc e).first_ttyacm =
      if isACM e && acc.first_ttyacm.isNone then some (devicePath e)
      else acc.first_ttyacm := by
  unfold detectStep
  cases hacm : isACM e with
  | false => simp
  | true =>
    cases hprod : e.product with
    | none => simp [hprod]; all_goals split <;> simp_all
    | some p =>
      by_cases hexact : p = "Web3_Pi_UPS"
      · simp [hprod, hexact]
        all_goals split <;> simp_all
      · by_cases hpico : strContainsSub p "Pico" = true
        · simp [hprod, hexact, hpico]
          all_goals split <;> split <;> simp_all
        · simp [hprod, hexact, hpico]
          all_goals split <;> simp_all

theorem orO_none_left {α : Type} (b : Option α) : orO none b = b := rfl

theorem foldl_detectStep_web3 :
    ∀ (entries : List TtyEntry) (acc : DetectAcc),
      (entries.foldl detectStep acc).web3_pi_ups =
        orO ((exactEntries entries).map devicePath).getLast? acc.web3_pi_ups := by
  intro entries
  induction entries with
  | nil => intro acc; simp [exactEntries, orO_none_left]
  | cons e rest ih =>
    intro acc
    rw [List.foldl_cons, ih, detectStep_web3]
    simp only [exactEntries, List.filter_cons]
    by_cases hex : isExactUps e = true
    · simp only [hex, if_true, List.map_cons, getLast?_cons_eq_orO]
      cases ((List.filter isExactUps rest).map devicePath).getLast? <;> simp [orO]
    · simp [hex]

theorem foldl_detectStep_pico :
    ∀ (entries : List TtyEntry) (acc : DetectAcc),
      (entries.foldl detectStep acc).raspberry_pi_pico =
        orO acc.raspberry_pi_pico ((legacyEntries entries).map devicePath).head? := by
  intro entries
  induction entries with
  | nil => intro acc; simp [legacyEntries, orO_none_right]
  | cons e rest ih =>
    intro acc
    rw [List.foldl_cons, ih, detectStep_pico]
    simp only [legacyEntries, List.filter_cons]
    by_cases hleg : isLegacyPico e = true
    · simp only [hleg, Bool.true_and, if_true, List.map_cons, List.head?_cons]
      cases hpo : acc.raspberry_pi_pico <;> simp [hpo, orO]
    · simp [hleg]

theorem foldl_detectStep_first :
    ∀ (entries : List TtyEntry) (acc : DetectAcc),
      (entries.foldl detectStep acc).first_ttyacm =
        orO acc.first_ttyacm ((acmEntries entries).map devicePath).head? := by
  intro entries
  induction entries with
  | nil => intro acc; simp [acmEntries, orO_none_right]
  | cons e rest ih =>
    intro acc
    rw [List.foldl_cons, ih, detectStep_first]
    simp only [acmEntries, List.filter_cons]
    by_cases hacm : isACM e = true
    · simp only [hacm, Bool.true_and, if_true, List.map_cons, List.head?_cons]
      cases hfo : acc.first_ttyacm <;> simp [hfo, orO]
    · simp [hacm]

theorem detectResult_eq_orO (acc : DetectAcc) :
    detectResult acc =
      orO acc.web3_pi_ups (orO acc.raspberry_pi_pico acc.first_ttyacm) := by
  cases hw : acc.web3_pi_ups <;> cases hp : acc.raspberry_pi_pico <;>
    simp [detectResult, orO, hw, hp]

theorem detect_ups_port_characterization (entries : List TtyEntry) :
    detect_ups_port entries =
      orO ((exactEntries entries).map devicePath).getLast?
        (orO ((legacyEntries entries).map devicePath).head?
          ((acmEntries entries).map devicePath).head?) := by
  unfold detect_ups_port
  rw [detectResult_eq_orO, foldl_detectStep_web3, foldl_detectStep_pico,
    foldl_detectStep_first]
  simp only [orO_none_right, orO_none_left]

theorem policyStep_counting_not_elapsed (b : BatteryConfig) (delay_seconds : Nat)
    (d : UpsData) (start_time now : Nat) (h : now - start_time < delay_seconds) :
    policyStep b delay_seconds (some start_time) d now =
      if should_shutdown d b then PolicyResult.stay (some start_time)
      else if (!is_on_battery d.vi b.min_valid_voltage b.max_valid_voltage ||
          decide (satAddU8 b.shutdown_threshold b.shutdown_cancel_margin ≤ d.sd)) then
        PolicyResult.stay none
      else PolicyResult.stay (some start_time) := by
  unfold policyStep
  by_cases hss : should_shutdown d b = true
  · simp [hss, Nat.not_le.mpr h]
  · simp [hss]

/-- C1: while `Counting` with the delay not yet elapsed, the countdown is
cancelled (timer cleared) iff the sample is off battery or its `sd` is at
least the saturating sum `shutdown_threshold + shutdown_cancel_margin`; in
particular an on-battery sample with `sd` in the half-open hysteresis band
`[threshold, threshold+margin)` leaves the countdown running. -/
theorem counting_cancel_iff (b : BatteryConfig) (delay_seconds : Nat) (d : UpsData)
    (start_time now : Nat) (hthr : b.shutdown_threshold ≤ 255)
    (hne : now - start_time < delay_seconds) :
    (policyStep b delay_seconds (some start_time) d now = PolicyResult.stay none ↔
      (¬ is_on_battery d.vi b.min_valid_voltage b.max_valid_voltage = true ∨
        satAddU8 b.shutdown_threshold b.shutdown_cancel_margin ≤ d.sd)) ∧
    (is_on_battery d.vi b.min_valid_voltage b.max_valid_voltage = true →
      b.shutdown_threshold ≤ d.sd →
      d.sd < satAddU8 b.shutdown_threshold b.shutdown_cancel_margin →
      policyStep b delay_seconds (some start_time) d now =
        PolicyResult.stay (some start_time)) := by
  have hstep := policyStep_counting_not_elapsed b delay_seconds d start_time now hne
  have hsatge : b.shutdown_threshold ≤
      satAddU8 b.shutdown_threshold b.shutdown_cancel_margin := by
    unfold satAddU8; omega
  constructor
  · rw [hstep]
    by_cases hss : should_shutdown d b = true
    · rw [if_pos hss]
      have hparts := (should_shutdown_iff d b).mp hss
      constructor
      · intro habs; simp at habs
      · rintro (hnb | hle)
        · exact absurd ((is_on_battery_iff _ _ _).mpr hparts.2) hnb
        · omega
    · rw [if_neg hss]
      by_cases hcond : (!is_on_battery d.vi b.min_valid_voltage b.max_valid_voltage ||
          decide (satAddU8 b.shutdown_threshold b.shutdown_cancel_margin ≤ d.sd)) = true
      · rw [if_pos hcond]
        simp only [Bool.or_eq_true, Bool.not_eq_true', decide_eq_true_eq] at hcond
        constructor
        · intro _
          rcases hcond with hf | hle
          · exact Or.inl (by simp [hf])
          · exact Or.inr hle
        · intro _; rfl
      · rw [if_neg hcond]
        simp only [Bool.or_eq_true, Bool.not_eq_true', decide_eq_true_eq] at hcond
        push_neg at hcond
        constructor
        · intro habs; simp at habs
        · rintro (hnb | hle)
          · have hfalse : is_on_battery d.vi b.min_valid_voltage b.max_valid_voltage
                = false := by simpa using hnb
            exact absurd hfalse hcond.1
          · exact absurd hle (by omega)
  · intro honb hthrle hsdlt
    rw [hstep]
    have hss : ¬ should_shutdown d b = true := by
      rw [should_shutdown_iff]
      rintro ⟨h1, _⟩
      omega
    rw [if_neg hss]
    have hcond : (!is_on_battery d.vi b.min_valid_voltage b.max_valid_voltage ||
        decide (satAddU8 b.shutdown_threshold b.shutdown_cancel_margin ≤ d.sd)) = false := by
      simp [honb]
      omega
    rw [if_neg (by simp [hcond])]

/-- Witness for C1: scenario battery settings, countdown started at 0, sample
at 20 s with `sd = 14` (inside the band `[10, 15)`) still on battery: the
countdown keeps running. -/
theorem counting_cancel_iff_witness :
    policyStep cfgScenario 30 (some 0) (mkSample 50 14 7000) 20 =
      PolicyResult.stay (some 0) :=
  (counting_cancel_iff cfgScenario 30 (mkSample 50 14 7000) 0 20 (by decide)
    (by decide)).2 (by decide) (by decide) (by decide)

/-- C2 counterexample: the policy fires, but the shutdown spawn fails
(`execute_shutdown_script` propagates `Err` through the `?` at
`src/main.rs` line 374); `main` restarts the loop, the policy is evaluated
again from `Idle`, fires again, and the `Shutdown` action is emitted twice
over the supervised run — contradicting "emitted at most once ... the outer
supervisor does not restart the loop". -/
theorem spawn_failure_refires :
    supervise cfgScenario 30
        [Session.runs ScriptOutcome.spawnError trigEvents,
          Session.runs ScriptOutcome.blocks trigEvents] =
      [UpsAction.shutdown, UpsAction.shutdown] := by decide

/-- C2 amended: `Shutdown` is emitted at most once per monitoring session,
and the session's action list is `[shutdown]` exactly when the session exits
`fired` or `errored`; when the shutdown spawn succeeds the collaborator never
returns, so a fired session is never `errored` and the supervisor never
restarts it — hence over any supervised run in which every reached
shutdown-spawn succeeds, `Shutdown` is emitted at most once.  Only a failed
shutdown spawn (an error exit) makes the supervisor restart the loop and
re-evaluate the policy. -/
theorem shutdown_once_unless_spawn_fails (battery : BatteryConfig)
    (delay_seconds : Nat) :
    (∀ (script : ScriptOutcome) (timer : Option Nat) (events : List TimedEvent),
      (runLoop battery delay_seconds script timer events).1.length ≤ 1) ∧
    (∀ (script : ScriptOutcome) (timer : Option Nat) (events : List TimedEvent),
      (runLoop battery delay_seconds script timer events).1 =
          [UpsAction.shutdown] ↔
        ((runLoop battery delay_seconds script timer events).2 =
            LoopExit.fired ∨
          (runLoop battery delay_seconds script timer events).2 =
            LoopExit.errored)) ∧
    (∀ (timer : Option Nat) (events : List TimedEvent),
      (runLoop battery delay_seconds ScriptOutcome.blocks timer events).2 ≠
        LoopExit.errored) ∧
    (∀ sessions : List Session,
      (∀ script events, Session.runs script events ∈ sessions →
        script = ScriptOutcome.blocks) →
      (supervise battery delay_seconds sessions).length ≤ 1) := by
  refine ⟨?_, ?_, ?_, ?_⟩
  · intro script timer events
    exact runLoop_actions_length battery delay_seconds script events timer
  · intro script timer events
    exact runLoop_fired_iff battery delay_seconds script events timer
  · intro timer events
    exact runLoop_blocks_not_errored battery delay_seconds events timer
  · intro sessions
    induction sessions with
    | nil => intro _; simp [supervise]
    | cons s rest ih =>
      intro hall
      cases s with
      | startFailure =>
        have hrest : ∀ script events, Session.runs script events ∈ rest →
            script = ScriptOutcome.blocks := by
          intro script events hmem
          exact hall script events (List.mem_cons_of_mem _ hmem)
        simpa [supervise] using ih hrest
      | runs script events =>
        have hscript : script = ScriptOutcome.blocks :=
          hall script events (List.mem_cons_self _ _)
        subst hscript
        have hlen := runLoop_actions_length battery delay_seconds
          ScriptOutcome.blocks events none
        have hnerr := runLoop_blocks_not_errored battery delay_seconds
          events none
        simp only [supervise]
        cases hrun : runLoop battery delay_seconds ScriptOutcome.blocks
            none events with
        | mk acts exit =>
          cases exit with
          | fired => simpa [hrun] using hlen
          | stopped => simpa [hrun] using hlen
          | errored => exact absurd (by rw [hrun]) hnerr

/-- Witness for C2 amended: a run whose only session has a succeeding
shutdown spawn emits at most one `Shutdown`. -/
theorem shutdown_once_unless_spawn_fails_witness :
    (supervise cfgScenario 30
      [Session.runs ScriptOutcome.blocks trigEvents]).length ≤ 1 :=
  (shutdown_once_unless_spawn_fails cfgScenario 30).2.2.2
    [Session.runs ScriptOutcome.blocks trigEvents]
    (fun script events h => by
      have h2 := List.mem_singleton.mp h
      injection h2)

/-- C3: the on-battery predicate of `src/main.rs` holds exactly when the input
voltage lies outside the configured valid range. -/
theorem on_battery_iff_outside_range (vi minValid maxValid : Nat) :
    is_on_battery vi minValid maxValid = true ↔ (vi < minValid ∨ vi > maxValid) := by
  simp [is_on_battery]

/-- C4: the countdown trigger is `sd < shutdown_threshold` conjoined with the
on-battery predicate; it does not depend on the display `soc`; and in a
decoded sample `sd` comes from the wire field `"sd"` (defaulting to 0 when
absent) while `soc` comes from the wire field `"soc"`. -/
theorem trigger_condition_spec :
    (∀ (d : UpsData) (b : BatteryConfig),
      should_shutdown d b = true ↔
        (d.sd < b.shutdown_threshold ∧
          is_on_battery d.vi b.min_valid_voltage b.max_valid_voltage = true)) ∧
    (∀ (d : UpsData) (b : BatteryConfig) (soc2 : Nat),
      should_shutdown { d with soc := soc2 } b = should_shutdown d b) ∧
    (∀ (fields : List (String × Int)) (d : UpsData),
      decodeUpsData fields = some d →
        optU8 fields "sd" = some d.sd ∧ reqU8 fields "soc" = some d.soc ∧
          (lookupField fields "sd" = none → d.sd = 0)) := by
  refine ⟨?_, ?_, ?_⟩
  · intro d b
    simp [should_shutdown]
  · intro d b soc2
    simp [should_shutdown]
  · intro fields d h
    obtain ⟨hsoc, _, hsd⟩ := decodeUpsData_soc_vi_sd h
    refine ⟨hsd, hsoc, ?_⟩
    intro hnone
    rw [optU8, hnone] at hsd
    injection hsd with hsd
    exact hsd.symm

/-- Witness for C4: a concrete decode with the `"sd"` field absent yields
`sd = 0`, and the trigger holds for a concrete low-`sd` on-battery sample. -/
theorem trigger_condition_spec_witness :
    should_shutdown (mkSample 50 9 7000) cfgScenario = true ∧
      (mkSample 50 0 7000).sd = 0 :=
  ⟨(trigger_condition_spec.1 (mkSample 50 9 7000) cfgScenario).mpr
      ⟨by decide, by decide⟩,
    (trigger_condition_spec.2.2 [("soc", 50), ("vi", 7000)] (mkSample 50 0 7000)
      (by decide)).2.2 (by decide)⟩

/-- C5 counterexample: scenario settings, countdown started at 0; at 30 s
(elapsed = delay) a sample arrives with power restored (`vi = 9000` inside the
valid range) and `sd = 9`; the claim requires `Shutdown` to fire before the
cancel rule is considered, but the code evaluates the trigger first and
cancels instead of firing. -/
theorem elapsed_without_trigger_does_not_fire :
    policyStep cfgScenario 30 (some 0) (mkSample 50 9 9000) 30 =
        PolicyResult.stay none ∧
      policyStep cfgScenario 30 (some 0) (mkSample 50 9 9000) 30 ≠
        PolicyResult.fire ∧
      30 ≤ 30 - 0 := by decide

/-- C5 amended: the trigger condition is evaluated first each sample; in
`Counting` with the delay elapsed, `Shutdown` fires iff the very sample still
satisfies the trigger — otherwise control reaches the cancel rule even though
the delay has elapsed. -/
theorem fire_iff_trigger_when_elapsed (b : BatteryConfig) (delay_seconds : Nat)
    (d : UpsData) (start_time now : Nat)
    (helapsed : delay_seconds ≤ now - start_time) :
    policyStep b delay_seconds (some start_time) d now = PolicyResult.fire ↔
      should_shutdown d b = true := by
  unfold policyStep
  by_cases hss : should_shutdown d b = true
  · simp [hss, helapsed]
  · simp only [hss, if_false, Bool.false_eq_true]
    simp [hss]
    split
    · simp
    · simp

/-- Witness for C5 amended: with the trigger still satisfied at the elapsed
deadline the policy fires. -/
theorem fire_iff_trigger_when_elapsed_witness :
    policyStep cfgScenario 30 (some 0) (mkSample 50 9 7000) 30 =
      PolicyResult.fire :=
  (fire_iff_trigger_when_elapsed cfgScenario 30 (mkSample 50 9 7000) 0 30
    (by decide)).mpr (by decide)

/-- C6 counterexample: a trace in which a non-timeout serial I/O error is
followed by two trigger samples; the claim says the error is fatal to the
session and propagated, but the session keeps running, processes both samples
and fires. -/
theorem io_error_not_fatal :
    runLoop cfgScenario 30 ScriptOutcome.blocks none
        [⟨0, ReadEvent.ioError⟩,
          ⟨0, ReadEvent.object [("soc", 50), ("sd", 9), ("vi", 7000)]⟩,
          ⟨30, ReadEvent.object [("soc", 50), ("sd", 9), ("vi", 7000)]⟩] =
      ([UpsAction.shutdown], LoopExit.fired) := by decide

/-- C6 amended: every read outcome other than a decoded line — EOF, read
timeout, and any other serial I/O error alike — is retried in place: the
session state is unchanged and no error is propagated to the supervisor. -/
theorem read_errors_retry_in_place (battery : BatteryConfig) (delay_seconds : Nat)
    (script : ScriptOutcome) (timer : Option Nat) (now : Nat)
    (rest : List TimedEvent) :
    runLoop battery delay_seconds script timer
          (⟨now, ReadEvent.ioError⟩ :: rest) =
        runLoop battery delay_seconds script timer rest ∧
      runLoop battery delay_seconds script timer
          (⟨now, ReadEvent.eof⟩ :: rest) =
        runLoop battery delay_seconds script timer rest ∧
      runLoop battery delay_seconds script timer
          (⟨now, ReadEvent.timeout⟩ :: rest) =
        runLoop battery delay_seconds script timer rest := by
  refine ⟨rfl, rfl, rfl⟩

/-- C9 counterexample: the line `\x7b"soc":200,"vi":9000\x7d` decodes
successfully to a sample whose `soc` is 200, outside `[0, 100]`. -/
theorem decode_accepts_soc_above_100 :
    decodeUpsData [("soc", 200), ("vi", 9000)] = some (mkSample 200 0 9000) ∧
      100 < (mkSample 200 0 9000).soc := by decide

/-- C9 amended: the decoder bounds the percentage fields only by their `u8`
wire type — every decoded sample satisfies `soc ≤ 255` and `sd ≤ 255` (values
in `101..=255` are accepted; the `[0, 100]` bound is not enforced). -/
theorem decoded_percentages_u8_bounded (fields : List (String × Int))
    (d : UpsData) (h : decodeUpsData fields = some d) :
    d.soc ≤ 255 ∧ d.sd ≤ 255 := by
  obtain ⟨h1, _, h3⟩ := decodeUpsData_soc_vi_sd h
  exact ⟨reqU8_le h1, optU8_le h3⟩

/-- Witness for C9 amended, at a concrete successfully decoded line. -/
theorem decoded_percentages_u8_bounded_witness :
    (mkSample 50 0 7000).soc ≤ 255 ∧ (mkSample 50 0 7000).sd ≤ 255 :=
  decoded_percentages_u8_bounded [("soc", 50), ("vi", 7000)]
    (mkSample 50 0 7000) (by decide)

/-- C7: discovery priority over the full candidate set — some exact-marker
candidate wins whenever one exists (whatever the enumeration order); else the
first legacy-marker candidate; else the first enumerated ttyACM candidate;
else `none` when there are no ttyACM candidates at all. -/
theorem detect_priority (entries : List TtyEntry) :
    (exactEntries entries ≠ [] →
      ∃ e ∈ exactEntries entries,
        detect_ups_port entries = some (devicePath e)) ∧
    (exactEntries entries = [] → legacyEntries entries ≠ [] →
      detect_ups_port entries = ((legacyEntries entries).map devicePath).head?) ∧
    (exactEntries entries = [] → legacyEntries entries = [] →
      detect_ups_port entries = ((acmEntries entries).map devicePath).head?) ∧
    (acmEntries entries = [] → detect_ups_port entries = none) := by
  have hchar := detect_ups_port_characterization entries
  refine ⟨?_, ?_, ?_, ?_⟩
  · intro hne
    have hmapne : (exactEntries entries).map devicePath ≠ [] := by
      simpa using hne
    have hlast := List.getLast?_eq_getLast_of_ne_nil hmapne
    have hp : ((exactEntries entries).map devicePath).getLast hmapne ∈
        (exactEntries entries).map devicePath := List.getLast_mem hmapne
    rcases List.mem_map.mp hp with ⟨e, he, hpe⟩
    refine ⟨e, he, ?_⟩
    rw [hchar, hlast, hpe]
    rfl
  · intro hex hleg
    rw [hchar, hex]
    simp only [List.map_nil, List.getLast?_nil, orO_none_left]
    cases hh : ((legacyEntries entries).map devicePath).head? with
    | some p => rfl
    | none =>
      exfalso
      exact hleg (by simpa using List.head?_eq_none_iff.mp hh)
  · intro hex hleg
    rw [hchar, hex, hleg]
    rfl
  · intro hacm
    have hex : exactEntries entries = [] := by
      rw [exactEntries, List.filter_eq_nil_iff]
      intro e he hsel
      have : ¬ isACM e = true := by
        have := List.filter_eq_nil_iff.mp hacm e he
        simpa [acmEntries] using List.filter_eq_nil_iff.mp hacm e he
      exact this (by simp [isExactUps] at hsel; exact hsel.1)
    have hleg : legacyEntries entries = [] := by
      rw [legacyEntries, List.filter_eq_nil_iff]
      intro e he hsel
      have := List.filter_eq_nil_iff.mp hacm e he
      simp [acmEntries] at this
      simp [isLegacyPico, this] at hsel
    rw [hchar, hex, hleg, hacm]
    rfl

/-- Witness for C7: a legacy candidate enumerated first does not beat the
exact-marker candidate behind it. -/
theorem detect_priority_witness :
    ∃ e ∈ exactEntries [entryLegacy, entryExact1],
      detect_ups_port [entryLegacy, entryExact1] = some (devicePath e) :=
  (detect_priority [entryLegacy, entryExact1]).1 (by decide)

/-- C10: full characterization of the selection — the exact-marker slot is
overwritten on each match, so the *last* exact candidate wins; the legacy
slot is first-wins; the fallback is the first enumerated ttyACM candidate;
and a candidate with an unreadable identity string is never an exact or
legacy candidate, so it can be selected only through the fallback. -/
theorem detect_tie_breaking (entries : List TtyEntry) :
    detect_ups_port entries =
        orO ((exactEntries entries).map devicePath).getLast?
          (orO ((legacyEntries entries).map devicePath).head?
            ((acmEntries entries).map devicePath).head?) ∧
      (∀ e : TtyEntry, e.product = none →
        e ∉ exactEntries entries ∧ e ∉ legacyEntries entries) := by
  refine ⟨detect_ups_port_characterization entries, ?_⟩
  intro e hprod
  constructor
  · intro hmem
    have hsel := (List.mem_filter.mp (by simpa [exactEntries] using hmem)).2
    simp [isExactUps, hprod] at hsel
  · intro hmem
    have hsel := (List.mem_filter.mp (by simpa [legacyEntries] using hmem)).2
    simp [isLegacyPico, hprod] at hsel

/-- Witness for C10: with two exact-marker candidates the later one is
returned, and the unreadable candidate is in neither marker class. -/
theorem detect_tie_breaking_witness :
    detect_ups_port [entryExact1, entryNoProduct, entryExact2] =
        some "/dev/ttyACM2" ∧
      entryNoProduct ∉ exactEntries [entryExact1, entryNoProduct, entryExact2] :=
  ⟨((detect_tie_breaking [entryExact1, entryNoProduct, entryExact2]).1).trans
      (by decide),
    ((detect_tie_breaking [entryExact1, entryNoProduct, entryExact2]).2
      entryNoProduct (by decide)).1⟩

/-- C8: `broadcast` serializes the sample once into one newline-terminated
line, attempts exactly one write of that identical line to each currently
connected observer in order, retains an observer iff its write succeeded, and
an evicted (or never-connected) observer never reappears through later hub
operations unless it is accepted again. -/
theorem broadcast_delivery_spec :
    (∀ (writeOk : Nat → Bool) (clients : List Nat) (d : Daemon.UpsData),
      (Daemon.broadcast writeOk clients d).1 =
          Daemon.serializeUpsData d ++ "\n" ∧
        (Daemon.broadcast writeOk clients d).2.1 =
          clients.map (fun c => (c, Daemon.serializeUpsData d ++ "\n")) ∧
        (∀ c, c ∈ (Daemon.broadcast writeOk clients d).2.2 ↔
          (c ∈ clients ∧ writeOk c = true))) ∧
    (∀ (c : Nat) (ops : List Daemon.HubOp) (clients : List Nat),
      c ∉ clients →
      (∀ pending, Daemon.HubOp.accept pending ∈ ops → c ∉ pending) →
      c ∉ Daemon.hubRun clients ops) := by
  refine ⟨?_, ?_⟩
  · intro writeOk clients d
    refine ⟨rfl, rfl, ?_⟩
    intro c
    simp [Daemon.broadcast, List.mem_filter]
  · intro c ops clients h1 h2
    exact Daemon.hubRun_not_mem c ops clients h1 h2

/-- Witness for C8: stream 2 is evicted by a broadcast whose write to it
fails and is absent from the hub state afterwards. -/
theorem broadcast_delivery_spec_witness :
    2 ∉ (Daemon.broadcast okNot2 [1, 2, 3] dZero).2.2 ∧
      2 ∉ Daemon.hubRun [1, 3] [Daemon.HubOp.publish okNot2 dZero] :=
  ⟨fun hmem =>
      absurd (((broadcast_delivery_spec.1 okNot2 [1, 2, 3] dZero).2.2 2).mp
        hmem).2 (by decide),
    broadcast_delivery_spec.2 2 [Daemon.HubOp.publish okNot2 dZero] [1, 3]
      (by decide)
      (fun pending hp => by
        rcases List.mem_singleton.mp hp with h
        exact Daemon.HubOp.noConfusion h)⟩
